

import Mathlib

/-!
# PixelArtPro editor core: a shallow embedding and verification
This file embeds the behavioural core of the pixel-art editor
(`src/components/Editor.tsx`) in Lean 4 and proves or refutes the frozen
specification claims about it.
Modelling conventions:
* An `ImageData` buffer is a list of RGBA quadruples (the source's flat
  `Uint8ClampedArray` is always accessed in 4-byte-aligned groups, so the
  quadruple view is exact); channel values are natural numbers.
* Stateful canvas mutation becomes explicit state passing; the stack-based
  flood-fill loop is given explicit fuel `4*w*h + 1`, which dominates the
  loop's decreasing measure (4·|matching pixels| + |stack|) whenever the
  fill color differs from the start color, so the fueled loop runs the
  source loop to completion.
* Machine integers are `Nat`/`Int` (JS numbers here are always small
  integers except for layer opacity and fps division, which use `ℚ`).
-/
/-- One RGBA pixel: four 8-bit channels (modelled as `Nat`). -/
structure RGBA where
  r : Nat
  g : Nat
  b : Nat
  a : Nat
deriving DecidableEq, Repr

/-- The canvas `ImageData` object: dimensions plus the pixel array. -/
structure ImageData where
  width : Nat
  height : Nat
  data : List RGBA
deriving DecidableEq, Repr

/-- Value of a hexadecimal digit character, if it is one. -/
def hexDigitVal (c : Char) : Option Nat :=
  if '0' ≤ c ∧ c ≤ '9' then some (c.toNat - '0'.toNat)
  else if 'a' ≤ c ∧ c ≤ 'f' then some (c.toNat - 'a'.toNat + 10)
  else if 'A' ≤ c ∧ c ≤ 'F' then some (c.toNat - 'A'.toNat + 10)
  else none

/-- Accumulate the maximal hex-digit prefix (the tail of JS `parseInt`). -/
def parseHexGo (acc : Nat) : List Char → Nat
  | [] => acc
  | c :: cs =>
    match hexDigitVal c with
    | none => acc
    | some d => parseHexGo (16 * acc + d) cs

/-- JS `parseInt(s, 16)`: value of the maximal hex-digit prefix, `none` for
`NaN` (no leading digit). -/
def jsParseHex : List Char → Option Nat
  | [] => none
  | c :: cs =>
    match hexDigitVal c with
    | none => none
    | some d => some (parseHexGo d cs)

/-- `hexToRgba` from the source: `parseInt(hex.slice(1,3),16) || 0` per
channel, alpha fixed at 255. -/
def hexToRgba (hex : String) : RGBA :=
  let cs := hex.toList
  { r := (jsParseHex ((cs.drop 1).take 2)).getD 0
    g := (jsParseHex ((cs.drop 3).take 2)).getD 0
    b := (jsParseHex ((cs.drop 5).take 2)).getD 0
    a := 255 }

/-- JS `n.toString(16)` for a natural number (lowercase digits). -/
def natToHexString (n : Nat) : String :=
  (Nat.toDigits 16 n).asString

/-- JS `String.padStart(2, '0')`. -/
def padStart2 (s : String) : String :=
  if s.length < 2 then "0".pushn '0' (2 - 1 - s.length) ++ s else s

/-- `rgbaToHex` from the source. -/
def rgbaToHex (r g b : Nat) : String :=
  "#" ++ padStart2 (natToHexString r) ++ padStart2 (natToHexString g)
      ++ padStart2 (natToHexString b)

/-! ## replaceColor (Editor.tsx lines 317–329)
Scans every pixel of the buffer; any pixel whose four channels equal the
target exactly is overwritten with the replacement. -/
def replaceColor (img : ImageData) (targetColor replacementColor : RGBA) : ImageData :=
  { img with
    data := img.data.map
      (fun p => if p = targetColor then replacementColor else p) }

/-! ## floodFill (Editor.tsx lines 332–379)
Stack-based 4-connected flood fill on the `ImageData` array, with the
symmetry-mirror recursion of the source (`isMirrorCall` bounding the
recursion depth at one).  The JS byte position `(y*canvasWidth + x)*4` is
modelled (divided by 4) as `pixPos`; a negative JS index reads `undefined`,
modelled as `none`.  For in-bounds seeds the model is exact. -/
/-- The symmetry modes of the editor. -/
inductive SymmetryMode where
  | noSym
  | horizontal
  | vertical
deriving DecidableEq, Repr

/-- Row-major pixel position `y * canvasWidth + x` (may be negative). -/
def pixPos (w : Nat) (x y : Int) : Int := y * w + x

/-- JS array read `data[pos]` at a possibly negative index: negative
indices (and indices past the end) read `undefined`, i.e. `none`. -/
def jsDataAt (data : List RGBA) (pos : Int) : Option RGBA :=
  if 0 ≤ pos then data[pos.toNat]? else none

/-- The source's `while (pixelStack.length > 0)` loop, fueled.  A popped
coordinate is skipped if out of bounds or not exactly matching the start
color (all four channels); otherwise it is recolored and its four
neighbors are pushed (in the source's push order, so the head of the list
is the next pop). -/
def floodLoop (w h : Nat) (startC fillC : RGBA) :
    Nat → List (Int × Int) → List RGBA → List RGBA
  | _, [], data => data
  | 0, _ :: _, data => data
  | fuel + 1, (cx, cy) :: rest, data =>
    if 0 ≤ cx ∧ cx < (w : Int) ∧ 0 ≤ cy ∧ cy < (h : Int) ∧
        jsDataAt data (pixPos w cx cy) = some startC then
      floodLoop w h startC fillC fuel
        ((cx, cy - 1) :: (cx, cy + 1) :: (cx - 1, cy) :: (cx + 1, cy) :: rest)
        (data.set (pixPos w cx cy).toNat fillC)
    else
      floodLoop w h startC fillC fuel rest data

/-- One fill pass (the behaviour of the source's `floodFill` when invoked
with `isMirrorCall = true`, which never recurses): sample the start color
once at the seed, no-op if the fill color equals it exactly, else run the
loop.  Fuel `4*w*h + 1` dominates the loop's decreasing measure. -/
def floodFillPass (img : ImageData) (x y : Int) (color : String) : ImageData :=
  match jsDataAt img.data (pixPos img.width x y) with
  | none => img
  | some startC =>
    if hexToRgba color = startC then img
    else
      { img with
        data := floodLoop img.width img.height startC (hexToRgba color)
          (4 * img.width * img.height + 1) [(x, y)] img.data }

/-- The source's `floodFill` as invoked by the bucket tool
(`isMirrorCall = false`): runs the fill, then — only when the early
equal-color return did not fire — recursively fills the mirrored seed when
a symmetry mode is active and the mirrored seed differs. -/
def floodFill (mode : SymmetryMode) (img : ImageData) (x y : Int)
    (color : String) : ImageData :=
  match jsDataAt img.data (pixPos img.width x y) with
  | none => img
  | some startC =>
    if hexToRgba color = startC then img
    else
      let img1 : ImageData :=
        { img with
          data := floodLoop img.width img.height startC (hexToRgba color)
            (4 * img.width * img.height + 1) [(x, y)] img.data }
      let mirroredX : Int :=
        if mode = SymmetryMode.horizontal then (img.width : Int) - 1 - x else x
      let mirroredY : Int :=
        if mode = SymmetryMode.vertical then (img.height : Int) - 1 - y else y
      if mirroredX ≠ x ∨ mirroredY ≠ y then floodFillPass img1 mirroredX mirroredY color
      else img1

/-- 4-adjacency of integer pixel coordinates. -/
def adj4 (p q : Int × Int) : Prop :=
  (q.1 = p.1 + 1 ∧ q.2 = p.2) ∨ (q.1 = p.1 - 1 ∧ q.2 = p.2) ∨
  (q.1 = p.1 ∧ q.2 = p.2 + 1) ∨ (q.1 = p.1 ∧ q.2 = p.2 - 1)

/-- Coordinates 4-connected to the seed through in-bounds pixels whose four
channels exactly match the start color captured once at the seed, in the
original buffer `data`. -/
inductive Reach (w h : Nat) (data : List RGBA) (startC : RGBA)
    (seed : Int × Int) : Int × Int → Prop where
  | seed : Reach w h data startC seed seed
  | step (p q : Int × Int) : Reach w h data startC seed p → adj4 p q →
      0 ≤ q.1 → q.1 < (w : Int) → 0 ≤ q.2 → q.2 < (h : Int) →
      jsDataAt data (pixPos w q.1 q.2) = some startC →
      Reach w h data startC seed q

/-- The 3×1 buffer (red, green, red) that refutes C5 as stated. -/
def mirrorFillImg : ImageData :=
  ⟨3, 1, [⟨255, 0, 0, 255⟩, ⟨0, 255, 0, 255⟩, ⟨255, 0, 0, 255⟩]⟩

/-! ## Color quantization: median cut (Editor.tsx lines 79–151) -/
/-- An opaque pixel's RGB triple, as pushed into the working list. -/
structure RGB where
  r : Nat
  g : Nat
  b : Nat
deriving DecidableEq, Repr

/-- Pixels with alpha strictly above the translucency threshold 128, in
buffer order. -/
def opaquePixels (img : ImageData) : List RGB :=
  img.data.filterMap (fun p => if 128 < p.a then some ⟨p.r, p.g, p.b⟩ else none)

/-- JS `Array.from(new Set(xs))`: first-occurrence deduplication, with the
set of already-seen elements made explicit. -/
def jsDedupGo {α : Type} [DecidableEq α] (seen : List α) : List α → List α
  | [] => []
  | a :: l => if a ∈ seen then jsDedupGo seen l else a :: jsDedupGo (a :: seen) l

/-- JS `Array.from(new Set(xs))`. -/
def jsDedup {α : Type} [DecidableEq α] (l : List α) : List α :=
  jsDedupGo [] l

/-- Per-channel mins and maxes of a bucket, folded from the source's
initial values `min = 255`, `max = 0`. -/
structure ChanBounds where
  minR : Nat
  maxR : Nat
  minG : Nat
  maxG : Nat
  minB : Nat
  maxB : Nat
deriving DecidableEq, Repr

def bucketBounds (bucket : List RGB) : ChanBounds :=
  bucket.foldl
    (fun s p =>
      { minR := min s.minR p.r, maxR := max s.maxR p.r,
        minG := min s.minG p.g, maxG := max s.maxG p.g,
        minB := min s.minB p.b, maxB := max s.maxB p.b })
    ⟨255, 0, 255, 0, 255, 0⟩

def rRange (s : ChanBounds) : Int := (s.maxR : Int) - s.minR

def gRange (s : ChanBounds) : Int := (s.maxG : Int) - s.minG

def bRange (s : ChanBounds) : Int := (s.maxB : Int) - s.minB

/-- `Math.max(maxR - minR, maxG - minG, maxB - minB)` for a bucket. -/
def bucketRange (bucket : List RGB) : Int :=
  let s := bucketBounds bucket
  max (rRange s) (max (gRange s) (bRange s))

/-- The running best of the selection loop: `none` models the initial
sentinel `largestBucketIndex = -1`, whose range compares as `-1`. -/
def bestRange : Option (Nat × Int) → Int
  | none => -1
  | some br => br.2

/-- The source's `buckets.forEach` selection loop: remember the first
index of a bucket with more than one pixel whose range strictly exceeds
the best so far. -/
def pickBucketGo : Nat → List (List RGB) → Option (Nat × Int) → Option (Nat × Int)
  | _, [], best => best
  | i, bkt :: rest, best =>
    pickBucketGo (i + 1) rest
      (if 1 < bkt.length ∧ bestRange best < bucketRange bkt then
        some (i, bucketRange bkt)
      else best)

def pickBucket (buckets : List (List RGB)) : Option (Nat × Int) :=
  pickBucketGo 0 buckets none

/-- Sort-axis choice of the source: `0 = R, 1 = G, 2 = B`;
G if `gRange ≥ rRange ∧ gRange ≥ bRange`, else B if
`bRange ≥ rRange ∧ bRange ≥ gRange`, else R. -/
def sortAxisOf (bucket : List RGB) : Nat :=
  let s := bucketBounds bucket
  if rRange s ≤ gRange s ∧ bRange s ≤ gRange s then 1
  else if rRange s ≤ bRange s ∧ gRange s ≤ bRange s then 2
  else 0

/-- Channel of a pixel selected by the sort axis (`a[sortAxis]`). -/
def axisVal (axis : Nat) (p : RGB) : Nat :=
  if axis = 1 then p.g else if axis = 2 then p.b else p.r

/-- One body of the median-cut while loop at the chosen bucket index `j`:
sort the bucket ascending on the chosen axis (JS `Array.sort` is stable;
modelled by the stable `List.mergeSort`), split at `floor(length/2)`, and
`splice(j, 1, newBucket1, newBucket2)`. -/
def splitBucket (buckets : List (List RGB)) (j : Nat) : List (List RGB) :=
  match buckets[j]? with
  | none => buckets
  | some bucketToSort =>
    let axis := sortAxisOf bucketToSort
    let sorted := bucketToSort.mergeSort
      (fun p q => decide (axisVal axis p ≤ axisVal axis q))
    let mid := sorted.length / 2
    buckets.take j ++ [sorted.take mid, sorted.drop mid] ++ buckets.drop (j + 1)

/-- The `while (buckets.length < count)` loop, fueled by `count` (the
bucket count grows by one per iteration, so `count` units always run the
loop to its exit condition or its `break`). -/
def medianCutLoop (count : Nat) : Nat → List (List RGB) → List (List RGB)
  | 0, buckets => buckets
  | fuel + 1, buckets =>
    if buckets.length < count then
      match pickBucket buckets with
      | none => buckets
      | some jr => medianCutLoop count fuel (splitBucket buckets jr.1)
    else buckets

/-- JS `Math.round(s / n)` for naturals: round half up. -/
def jsRoundDiv (s n : Nat) : Nat := (2 * s + n) / (2 * n)

/-- Representative color of a final bucket: rounded arithmetic channel
means, rendered as hex. -/
def bucketAvgHex (bucket : List RGB) : String :=
  let n := bucket.length
  rgbaToHex (jsRoundDiv (bucket.foldl (fun acc p => acc + p.r) 0) n)
    (jsRoundDiv (bucket.foldl (fun acc p => acc + p.g) 0) n)
    (jsRoundDiv (bucket.foldl (fun acc p => acc + p.b) 0) n)

/-- `quantizeColors` from the source. -/
def quantizeColors (img : ImageData) (count : Nat) : List String :=
  let pixels := opaquePixels img
  if pixels.length = 0 then []
  else if (jsDedup (pixels.map (fun p => rgbaToHex p.r p.g p.b))).length ≤ count then
    jsDedup (pixels.map (fun p => rgbaToHex p.r p.g p.b))
  else
    let buckets := medianCutLoop count count [pixels]
    jsDedup ((buckets.filter (fun bkt => 0 < bkt.length)).map bucketAvgHex)

/-! ## Editor document state (Editor.tsx lines 15–59, 164–176, 525–556,
678–708)
The `Layer`/`Frame` data model and the layer/frame handlers.  A layer's
canvas is its pixel buffer; `drawImage(src, 0, 0)` of a same-size canvas
onto a freshly created blank canvas is modelled as an exact buffer copy.
Fresh `crypto.randomUUID()` values are taken as parameters.  The model
lives in the `Editor` namespace (`Frame` clashes with a Mathlib name). -/
namespace Editor

/-- A layer: id, name, pixel buffer, and the composite-time properties. -/
structure Layer where
  id : String
  name : String
  buffer : List RGBA
  isVisible : Bool
  opacity : ℚ
  blendMode : String
  offset : Int × Int
deriving DecidableEq, Repr

/-- A frame: ordered layer stack (bottom first) and display duration. -/
structure Frame where
  id : String
  layers : List Layer
  duration : Nat
deriving DecidableEq, Repr

/-- The editor state touched by the layer/frame handlers. -/
structure EditorState where
  frames : List Frame
  currentFrameIndex : Nat
  activeLayerId : Option String
deriving DecidableEq, Repr

/-- `createLayer`: a blank transparent canvas with the default properties
`isVisible: true, opacity: 1, blendMode: 'source-over', offset: (0,0)`. -/
def createLayer (id name : String) (width height : Nat) : Layer :=
  { id := id, name := name,
    buffer := List.replicate (width * height) ⟨0, 0, 0, 0⟩,
    isVisible := true, opacity := 1, blendMode := "source-over",
    offset := (0, 0) }

/-- `const layers = currentFrame?.layers || []`. -/
def layersOf (s : EditorState) : List Layer :=
  match s.frames[s.currentFrameIndex]? with
  | none => []
  | some f => f.layers

/-- `updateCurrentFrameLayers`: map over the frames, replacing the layer
list of the frame at the current index. -/
def updateCurrentFrameLayers (s : EditorState) (newLayers : List Layer) :
    EditorState :=
  { s with
    frames := s.frames.mapIdx
      (fun i f =>
        if i = s.currentFrameIndex then { f with layers := newLayers } else f) }

/-- JS `Array.findIndex`: index of the first match, `-1` when absent. -/
def jsFindIndex {α : Type} (p : α → Bool) (l : List α) : Int :=
  match l.findIdx? p with
  | none => -1
  | some i => i

/-- `handleDeleteLayer` (lines 534–545): silent no-op when the frame has
at most one layer; otherwise removes the active layer and re-selects the
layer below (index clamped at 0). -/
def handleDeleteLayer (s : EditorState) : EditorState :=
  let layers := layersOf s
  if layers.length ≤ 1 then s
  else
    let activeIndex := jsFindIndex (fun l => decide (some l.id = s.activeLayerId)) layers
    let newLayers := layers.filter (fun l => decide (some l.id ≠ s.activeLayerId))
    let newActiveId :=
      if 0 < newLayers.length then
        (newLayers[(max 0 (activeIndex - 1)).toNat]?).map (fun l => l.id)
      else none
    { updateCurrentFrameLayers s newLayers with activeLayerId := newActiveId }

/-- `handleDeleteFrame` (lines 703–708): silent no-op when only one frame
exists; otherwise removes the current frame by index and clamps the
current index down by one (`Math.max(0, i-1)` is `Nat` truncation). -/
def handleDeleteFrame (s : EditorState) : EditorState :=
  if s.frames.length ≤ 1 then s
  else
    { s with
      frames := (s.frames.enum.filter
        (fun fi => decide (fi.1 ≠ s.currentFrameIndex))).map (fun fi => fi.2),
      currentFrameIndex := s.currentFrameIndex - 1 }

/-- `handleDuplicateLayer` (lines 547–556): no-op without an active layer;
otherwise a fresh default layer named `'<name> Copy'` carrying a copy of
the active layer's buffer, inserted right above it and selected. -/
def handleDuplicateLayer (s : EditorState) (newId : String) (w h : Nat) :
    EditorState :=
  let layers := layersOf s
  match layers.find? (fun l => decide (some l.id = s.activeLayerId)) with
  | none => s
  | some activeLayer =>
    let newLayer :=
      { createLayer newId (activeLayer.name ++ " Copy") w h with
          buffer := activeLayer.buffer }
    let activeIndex := jsFindIndex (fun l => decide (some l.id = s.activeLayerId)) layers
    let newLayers := layers.take (activeIndex + 1).toNat ++ [newLayer] ++
      layers.drop (activeIndex + 1).toNat
    { updateCurrentFrameLayers s newLayers with activeLayerId := some newId }

/-- `handleDuplicateFrame` (lines 678–695): no-op without a current frame;
otherwise a fresh frame whose layers are fresh default layers keeping each
source layer's name and carrying a copy of its buffer, inserted after the
current frame, which advances the current index. -/
def handleDuplicateFrame (s : EditorState) (newFrameId : String)
    (newIds : Nat → String) (w h : Nat) : EditorState :=
  match s.frames[s.currentFrameIndex]? with
  | none => s
  | some currentFrame =>
    let newLayers := currentFrame.layers.mapIdx
      (fun i l => { createLayer (newIds i) l.name w h with buffer := l.buffer })
    let newFrame : Frame :=
      { id := newFrameId, layers := newLayers, duration := currentFrame.duration }
    { s with
      frames := s.frames.take (s.currentFrameIndex + 1) ++ [newFrame] ++
        s.frames.drop (s.currentFrameIndex + 1),
      currentFrameIndex := s.currentFrameIndex + 1 }

end Editor

/-- The concrete non-default source layer for the C10 witness. -/
def c10Layer : Editor.Layer :=
  ⟨"l1", "L", [⟨1, 2, 3, 4⟩], false, 1 / 2, "multiply", (3, 4)⟩

/-- The concrete one-frame document for the C10 witness. -/
def c10State : Editor.EditorState :=
  ⟨[⟨"f1", [c10Layer], 100⟩], 0, some "l1"⟩

/-! ## History (Editor.tsx lines 175–176, 261–270)
`historyStack` starts `[]`, `historyIndex` starts `-1`; the handlers'
bodies are empty: `recordHistory` is a placeholder comment and
`handleUndo`/`handleRedo` are `() => { }`. -/
/-- A history snapshot (per the spec §4.5, enough to restore every layer
buffer of every frame); the source never constructs one. -/
structure Snapshot where
  frames : List Editor.Frame
deriving DecidableEq, Repr

/-- The history-related state hooks. -/
structure HistoryState where
  historyStack : List Snapshot
  historyIndex : Int
deriving DecidableEq, Repr

/-- `recordHistory` (lines 261–265): the body is an empty placeholder. -/
def recordHistory (s : HistoryState) : HistoryState := s

/-- `handleUndo` (line 269): `const handleUndo = () => { };`. -/
def handleUndo (s : HistoryState) : HistoryState := s

/-- `handleRedo` (line 270): `const handleRedo = () => { };`. -/
def handleRedo (s : HistoryState) : HistoryState := s

/-! ## drawPixel and symmetry (Editor.tsx lines 272–287)
`ctx.fillRect` with an opaque fill color paints every canvas pixel inside
the clipped rectangle; the surface is the active layer's canvas, whose
dimensions are the editor's `canvasWidth`/`canvasHeight`. -/
/-- A drawing surface for `fillRect`. -/
structure CanvasSurface where
  width : Nat
  height : Nat
  pix : Int → Int → RGBA

/-- `ctx.fillRect(rx, ry, size, size)` with the current opaque fill
color: paint every in-bounds pixel of the rectangle. -/
def fillRect (c : CanvasSurface) (rx ry : Int) (size : Nat) (col : RGBA) :
    CanvasSurface :=
  { c with pix := fun px py =>
      if rx ≤ px ∧ px < rx + size ∧ ry ≤ py ∧ py < ry + size ∧
          0 ≤ px ∧ px < (c.width : Int) ∧ 0 ≤ py ∧ py < (c.height : Int) then col
      else c.pix px py }

/-- `drawPixel` (lines 272–287): fill a `size × size` square whose
top-left corner is `(x, y)` minus `floor((size-1)/2)`; with a symmetry
mode active also fill the mirrored square, unless it coincides exactly
with the original. -/
def drawPixel (mode : SymmetryMode) (c : CanvasSurface) (x y : Int)
    (color : String) (size : Nat) : CanvasSurface :=
  let offset : Int := ((size : Int) - 1) / 2
  let drawX := x - offset
  let drawY := y - offset
  let c1 := fillRect c drawX drawY size (hexToRgba color)
  if mode = SymmetryMode.horizontal then
    let mirroredX := ((c.width : Int) - 1 - x) - offset
    if mirroredX ≠ drawX then fillRect c1 mirroredX drawY size (hexToRgba color)
    else c1
  else if mode = SymmetryMode.vertical then
    let mirroredY := ((c.height : Int) - 1 - y) - offset
    if mirroredY ≠ drawY then fillRect c1 drawX mirroredY size (hexToRgba color)
    else c1
  else c1

/-! ## Compositing and animated export (Editor.tsx lines 780–789 and
1013–1041)
The per-pixel math of the host canvas API (`globalAlpha`,
`globalCompositeOperation`, `drawImage`) is not code of this repository.
Modelled from the spec (§4.4: set the global alpha to the layer's
opacity, select the blend operator per the layer's `blendMode`, draw the
layer's buffer at its offset; "normal/source-over just
overwrites-with-alpha"): straight-alpha compositing over exact rationals,
with the named separable blend modes' standard per-channel math and the
four HSL modes via luminosity/saturation transfer (`soft-light`'s square
root is approximated polynomially; none of the proofs below evaluate any
mode other than `source-over`). -/
/-- A straight-alpha pixel with rational channels in `[0,1]`. -/
structure RGBAq where
  r : ℚ
  g : ℚ
  b : ℚ
  a : ℚ
deriving DecidableEq, Repr

/-- An 8-bit pixel as rational channels. -/
def toQ (p : RGBA) : RGBAq :=
  ⟨(p.r : ℚ) / 255, (p.g : ℚ) / 255, (p.b : ℚ) / 255, (p.a : ℚ) / 255⟩

def blendHardLight (cb cs : ℚ) : ℚ :=
  if cs ≤ 1 / 2 then cb * (2 * cs) else cb + (2 * cs - 1) - cb * (2 * cs - 1)

/-- Standard separable blend functions `B(backdrop, source)`; any
unrecognized operation behaves as normal (`source-over`). -/
def blendSep (mode : String) (cb cs : ℚ) : ℚ :=
  if mode = "multiply" then cb * cs
  else if mode = "screen" then cb + cs - cb * cs
  else if mode = "overlay" then blendHardLight cs cb
  else if mode = "darken" then min cb cs
  else if mode = "lighten" then max cb cs
  else if mode = "color-dodge" then
    (if cs = 1 then 1 else min 1 (cb / (1 - cs)))
  else if mode = "color-burn" then
    (if cs = 0 then 0 else 1 - min 1 ((1 - cb) / cs))
  else if mode = "hard-light" then blendHardLight cb cs
  else if mode = "soft-light" then
    (if cs ≤ 1 / 2 then cb - (1 - 2 * cs) * cb * (1 - cb)
     else cb + (2 * cs - 1) * ((((16 * cb - 12) * cb + 4) * cb) - cb))
  else if mode = "difference" then max cb cs - min cb cs
  else if mode = "exclusion" then cb + cs - 2 * cb * cs
  else cs

def lumQ (c : ℚ × ℚ × ℚ) : ℚ :=
  3 / 10 * c.1 + 59 / 100 * c.2.1 + 11 / 100 * c.2.2

def clipColor (c : ℚ × ℚ × ℚ) : ℚ × ℚ × ℚ :=
  let l := lumQ c
  let n := min c.1 (min c.2.1 c.2.2)
  let x := max c.1 (max c.2.1 c.2.2)
  let lo := fun cc : ℚ =>
    if n < 0 then (if l = n then l else l + (cc - l) * l / (l - n)) else cc
  let hi := fun cc : ℚ =>
    if 1 < x then (if l = x then l else l + (cc - l) * (1 - l) / (x - l)) else cc
  (hi (lo c.1), hi (lo c.2.1), hi (lo c.2.2))

def setLum (c : ℚ × ℚ × ℚ) (l : ℚ) : ℚ × ℚ × ℚ :=
  let d := l - lumQ c
  clipColor (c.1 + d, c.2.1 + d, c.2.2 + d)

def satQ (c : ℚ × ℚ × ℚ) : ℚ :=
  max c.1 (max c.2.1 c.2.2) - min c.1 (min c.2.1 c.2.2)

def setSat (c : ℚ × ℚ × ℚ) (s : ℚ) : ℚ × ℚ × ℚ :=
  let mn := min c.1 (min c.2.1 c.2.2)
  let mx := max c.1 (max c.2.1 c.2.2)
  let chan := fun v : ℚ => if mn < mx then (v - mn) * s / (mx - mn) else 0
  (chan c.1, chan c.2.1, chan c.2.2)

/-- Non-separable (HSL) blend functions. -/
def blendNonSep (mode : String) (cb cs : ℚ × ℚ × ℚ) : ℚ × ℚ × ℚ :=
  if mode = "hue" then setLum (setSat cs (satQ cb)) (lumQ cb)
  else if mode = "saturation" then setLum (setSat cb (satQ cs)) (lumQ cb)
  else if mode = "color" then setLum cs (lumQ cb)
  else setLum cb (lumQ cs)

def blendB (mode : String) (cb cs : ℚ × ℚ × ℚ) : ℚ × ℚ × ℚ :=
  if mode = "hue" ∨ mode = "saturation" ∨ mode = "color" ∨
      mode = "luminosity" then blendNonSep mode cb cs
  else (blendSep mode cb.1 cs.1, blendSep mode cb.2.1 cs.2.1,
    blendSep mode cb.2.2 cs.2.2)

/-- Composite one source pixel over a destination pixel under global
alpha `ga` and blend operation `mode` (the standard compositing
equation; `source-over` with `ga = 1` overwrites-with-alpha, and any
drawing under `ga = 0` has no effect). -/
def compositePixel (mode : String) (ga : ℚ) (src dst : RGBAq) : RGBAq :=
  let asrc := src.a * ga
  let aout := asrc + dst.a * (1 - asrc)
  let bl := blendB mode (dst.r, dst.g, dst.b) (src.r, src.g, src.b)
  let co := fun (cs cb bb : ℚ) =>
    (asrc * (1 - dst.a) * cs + asrc * dst.a * bb + (1 - asrc) * dst.a * cb) / aout
  if aout = 0 then ⟨0, 0, 0, 0⟩
  else ⟨co src.r dst.r bl.1, co src.g dst.g bl.2.1, co src.b dst.b bl.2.2, aout⟩

/-- Pixel of a `w × h` layer buffer at integer coordinates, when inside. -/
def bufPixAt (w h : Nat) (buf : List RGBA) (x y : Int) : Option RGBA :=
  if 0 ≤ x ∧ x < (w : Int) ∧ 0 ≤ y ∧ y < (h : Int) then buf[(y * w + x).toNat]?
  else none

/-- `ctx.drawImage(layer.canvas, ox, oy)` under global alpha `ga` and
operation `mode`: composite the source pixel wherever the translated
source rectangle covers the accumulator; elsewhere untouched. -/
def drawLayer (mode : String) (ga : ℚ) (w h : Nat) (buf : List RGBA)
    (ox oy : Int) (acc : Int → Int → RGBAq) : Int → Int → RGBAq :=
  fun x y =>
    match bufPixAt w h buf (x - ox) (y - oy) with
    | none => acc x y
    | some p => compositePixel mode ga (toQ p) (acc x y)

/-- The Compositor (the main-canvas redraw loop, lines 780–786): fold the
frame's visible layers bottom-to-top over a cleared transparent canvas,
with each layer's opacity as global alpha and its blend mode selected,
drawn at its offset. -/
def compositeFrame (w h : Nat) (f : Editor.Frame) : Int → Int → RGBAq :=
  f.layers.foldl
    (fun acc l =>
      if l.isVisible then
        drawLayer l.blendMode l.opacity w h l.buffer l.offset.1 l.offset.2 acc
      else acc)
    (fun _ _ => ⟨0, 0, 0, 0⟩)

/-- One exported GIF frame (the export loop, lines 1024–1031):
`clearRect` then plain `drawImage` of each visible layer at its offset —
the defaults `globalAlpha = 1` and `source-over` are in force; the
layer's opacity and blendMode are never set. -/
def gifRenderFrame (w h : Nat) (f : Editor.Frame) : Int → Int → RGBAq :=
  f.layers.foldl
    (fun acc l =>
      if l.isVisible then
        drawLayer "source-over" 1 w h l.buffer l.offset.1 l.offset.2 acc
      else acc)
    (fun _ _ => ⟨0, 0, 0, 0⟩)

/-- The assembled animated export (lines 1013–1041): the encoder is
created looping with delay `1000 / fps`, and one frame is added per
document frame. -/
structure GifData where
  delayMs : ℚ
  looping : Bool
  encodedFrames : List (Int → Int → RGBAq)

def gifExport (w h : Nat) (framesList : List Editor.Frame) (fps : ℚ) : GifData :=
  { delayMs := 1000 / fps, looping := true,
    encodedFrames := framesList.map (gifRenderFrame w h) }

/-- A frame whose only layer is visible but has opacity 0 (red pixel). -/
def c2OpacityFrame : Editor.Frame :=
  ⟨"f", [⟨"l", "L", [⟨255, 0, 0, 255⟩], true, 0, "source-over", (0, 0)⟩], 100⟩

/-- A frame with an opaque red base and an opaque blue multiply layer. -/
def c2BlendFrame : Editor.Frame :=
  ⟨"g", [⟨"b", "B", [⟨255, 0, 0, 255⟩], true, 1, "source-over", (0, 0)⟩,
    ⟨"t", "T", [⟨0, 0, 255, 255⟩], true, 1, "multiply", (0, 0)⟩], 100⟩

/-- **C6.** `replaceColor` sets exactly the pixels equal to the target to the
replacement, leaves every other pixel unchanged regardless of adjacency, and
`replaceColor buf C C` leaves the buffer unchanged for any color `C`. -/
theorem replaceColor_pixelwise_and_idem (img : ImageData) (t rep c : RGBA) :
    ((replaceColor img t rep).width = img.width ∧
      (replaceColor img t rep).height = img.height) ∧
    (∀ i : Nat, (replaceColor img t rep).data[i]? =
      (img.data[i]?).map (fun p => if p = t then rep else p)) ∧
    replaceColor img c c = img := by
  refine ⟨⟨rfl, rfl⟩, ?_, ?_⟩
  · intro i
    simp [replaceColor, List.getElem?_map]
  · have h : (fun p : RGBA => if p = c then c else p) = id := by
      funext p
      by_cases hp : p = c <;> simp [hp]
    cases img with
    | mk w h' d => simp [replaceColor, h]

/-- **C4.** For every buffer and in-bounds seed: if the fill color's four
RGBA channels exactly equal the four channels of the pixel at the seed,
`floodFill` leaves every pixel unchanged (the early return fires before the
loop and before any symmetry mirroring). -/
theorem floodFill_eq_color_noop (mode : SymmetryMode) (img : ImageData)
    (x y : Int) (color : String)
    (hx0 : 0 ≤ x) (hxw : x < (img.width : Int))
    (hy0 : 0 ≤ y) (hyh : y < (img.height : Int))
    (hmatch : jsDataAt img.data (pixPos img.width x y) = some (hexToRgba color)) :
    floodFill mode img x y color = img := by
  unfold floodFill
  rw [hmatch]
  simp

/-- Witness for C4 at a concrete 1×1 red buffer filled with red. -/
theorem floodFill_eq_color_noop_witness :
    ((0 : Int) ≤ 0 ∧ (0 : Int) < ((1 : Nat) : Int) ∧
      jsDataAt (⟨1, 1, [⟨255, 0, 0, 255⟩]⟩ : ImageData).data (pixPos 1 0 0) =
        some (hexToRgba "#ff0000")) ∧
    floodFill SymmetryMode.horizontal ⟨1, 1, [⟨255, 0, 0, 255⟩]⟩ 0 0 "#ff0000" =
      ⟨1, 1, [⟨255, 0, 0, 255⟩]⟩ := by
  refine ⟨⟨le_refl 0, by decide, by decide⟩, ?_⟩
  exact floodFill_eq_color_noop SymmetryMode.horizontal _ 0 0 "#ff0000"
    (le_refl 0) (by decide) (le_refl 0) (by decide) (by decide)

/-- Safety invariant of the flood-fill loop: pixels differing from the
original buffer hold the fill color and lie at coordinates reachable from
the seed; stack entries are the seed or neighbors of reachable pixels. -/
theorem floodLoop_safety (w h : Nat) (startC fillC : RGBA) (seed : Int × Int)
    (data0 : List RGBA) (hne : fillC ≠ startC) :
    ∀ (fuel : Nat) (stack : List (Int × Int)) (data : List RGBA),
    (∀ i : Nat, data[i]? = data0[i]? ∨
      (data[i]? = some fillC ∧ ∃ p : Int × Int,
        (pixPos w p.1 p.2).toNat = i ∧ Reach w h data0 startC seed p)) →
    (∀ e ∈ stack, e = seed ∨
      ∃ p : Int × Int, Reach w h data0 startC seed p ∧ adj4 p e) →
    ∀ i : Nat, (floodLoop w h startC fillC fuel stack data)[i]? = data0[i]? ∨
      ((floodLoop w h startC fillC fuel stack data)[i]? = some fillC ∧
        ∃ p : Int × Int, (pixPos w p.1 p.2).toNat = i ∧
          Reach w h data0 startC seed p) := by
  intro fuel
  induction fuel with
  | zero =>
    intro stack data h1 _ i
    cases stack with
    | nil => simpa [floodLoop] using h1 i
    | cons e rest => simpa [floodLoop] using h1 i
  | succ n ih =>
    intro stack data h1 h2 i
    match stack with
    | [] => simpa [floodLoop] using h1 i
    | (cx, cy) :: rest =>
      rw [floodLoop]
      by_cases hc : 0 ≤ cx ∧ cx < (w : Int) ∧ 0 ≤ cy ∧ cy < (h : Int) ∧
          jsDataAt data (pixPos w cx cy) = some startC
      · rw [if_pos hc]
        obtain ⟨hx0, hxw, hy0, hyh, hdat⟩ := hc
        have hposnn : 0 ≤ pixPos w cx cy := by
          unfold pixPos
          have : (0 : Int) ≤ cy * w := mul_nonneg hy0 (by positivity)
          omega
        have hdat' : data[(pixPos w cx cy).toNat]? = some startC := by
          rw [jsDataAt, if_pos hposnn] at hdat
          exact hdat
        have hd0 : jsDataAt data0 (pixPos w cx cy) = some startC := by
          rcases h1 (pixPos w cx cy).toNat with hsame | ⟨hfill, _⟩
          · rw [jsDataAt, if_pos hposnn, ← hsame]
            exact hdat'
          · rw [hdat'] at hfill
            exact absurd (Option.some.inj hfill).symm hne
        have hlt : (pixPos w cx cy).toNat < data.length :=
          List.getElem?_eq_some_iff.mp hdat' |>.1
        have hre : Reach w h data0 startC seed (cx, cy) := by
          rcases h2 (cx, cy) (List.mem_cons_self _ _) with hseed | ⟨p, hp, hadj⟩
          · rw [hseed]; exact Reach.seed
          · exact Reach.step p (cx, cy) hp hadj hx0 hxw hy0 hyh hd0
        refine ih _ _ ?_ ?_ i
        · intro j
          by_cases hj : j = (pixPos w cx cy).toNat
          · subst hj
            right
            refine ⟨?_, (cx, cy), rfl, hre⟩
            rw [List.getElem?_set_self hlt]
          · have : (data.set (pixPos w cx cy).toNat fillC)[j]? = data[j]? :=
              List.getElem?_set_ne (fun hh => hj hh.symm)
            rw [this]
            exact h1 j
        · intro e he
          simp only [List.mem_cons] at he
          rcases he with he | he | he | he | he
          · subst he
            right; exact ⟨(cx, cy), hre, Or.inr (Or.inr (Or.inr ⟨rfl, rfl⟩))⟩
          · subst he
            right; exact ⟨(cx, cy), hre, Or.inr (Or.inr (Or.inl ⟨rfl, rfl⟩))⟩
          · subst he
            right; exact ⟨(cx, cy), hre, Or.inr (Or.inl ⟨rfl, rfl⟩)⟩
          · subst he
            right; exact ⟨(cx, cy), hre, Or.inl ⟨rfl, rfl⟩⟩
          · exact h2 e (List.mem_cons_of_mem _ he)
      · rw [if_neg hc]
        exact ih rest data h1 (fun e he => h2 e (List.mem_cons_of_mem _ he)) i

/-- **C5 (amended).** With no symmetry mode active, `floodFill` never
recolors a pixel that is not 4-connected to the seed through pixels
matching the start color captured once at the seed; every pixel it does
recolor is set to the fill color and all other pixels are unchanged. -/
theorem floodFill_noSym_connectivity (img : ImageData) (x y : Int)
    (color : String) (s : RGBA)
    (hx0 : 0 ≤ x) (hxw : x < (img.width : Int))
    (hy0 : 0 ≤ y) (hyh : y < (img.height : Int))
    (hs : jsDataAt img.data (pixPos img.width x y) = some s) :
    ∀ i : Nat,
      (floodFill SymmetryMode.noSym img x y color).data[i]? = img.data[i]? ∨
      ((floodFill SymmetryMode.noSym img x y color).data[i]? =
          some (hexToRgba color) ∧
        ∃ p : Int × Int, (pixPos img.width p.1 p.2).toNat = i ∧
          Reach img.width img.height img.data s (x, y) p) := by
  intro i
  simp only [floodFill, hs]
  by_cases he : hexToRgba color = s
  · simp only [if_pos he]
    left
    trivial
  · simp only [if_neg he]
    have hsafe := floodLoop_safety img.width img.height s (hexToRgba color)
      (x, y) img.data he (4 * img.width * img.height + 1) [(x, y)] img.data
      (fun _ => Or.inl rfl)
      (by
        intro e hee
        simp only [List.mem_cons, List.not_mem_nil, or_false] at hee
        exact Or.inl hee)
    simpa using hsafe i

/-- Witness for the amended C5 on a concrete 2×1 all-red buffer. -/
theorem floodFill_noSym_connectivity_witness :
    ((0 : Int) ≤ 0 ∧ (0 : Int) <
        ((ImageData.mk 2 1 [⟨255, 0, 0, 255⟩, ⟨255, 0, 0, 255⟩]).width : Int) ∧
      jsDataAt (ImageData.mk 2 1 [⟨255, 0, 0, 255⟩, ⟨255, 0, 0, 255⟩]).data
        (pixPos 2 0 0) = some ⟨255, 0, 0, 255⟩) ∧
    ∀ i : Nat,
      (floodFill SymmetryMode.noSym
          (ImageData.mk 2 1 [⟨255, 0, 0, 255⟩, ⟨255, 0, 0, 255⟩]) 0 0
          "#0000ff").data[i]? =
        (ImageData.mk 2 1 [⟨255, 0, 0, 255⟩, ⟨255, 0, 0, 255⟩]).data[i]? ∨
      ((floodFill SymmetryMode.noSym
          (ImageData.mk 2 1 [⟨255, 0, 0, 255⟩, ⟨255, 0, 0, 255⟩]) 0 0
          "#0000ff").data[i]? = some (hexToRgba "#0000ff") ∧
        ∃ p : Int × Int, (pixPos 2 p.1 p.2).toNat = i ∧
          Reach 2 1 (ImageData.mk 2 1 [⟨255, 0, 0, 255⟩, ⟨255, 0, 0, 255⟩]).data
            ⟨255, 0, 0, 255⟩ (0, 0) p) :=
  ⟨⟨le_refl 0, by decide, by decide⟩,
    floodFill_noSym_connectivity
      (ImageData.mk 2 1 [⟨255, 0, 0, 255⟩, ⟨255, 0, 0, 255⟩]) 0 0 "#0000ff"
      ⟨255, 0, 0, 255⟩ (le_refl 0) (by decide) (le_refl 0) (by decide) (by decide)⟩

/-- **C5 counterexample.** With horizontal symmetry active, filling
`mirrorFillImg` at the in-bounds seed `(0,0)` with blue recolors pixel
`(2,0)` (index 2), which is *not* 4-connected to the seed through pixels
matching the start color (the middle pixel is green): the mirror pass
refills from the mirrored seed independently. -/
theorem floodFill_mirror_recolors_disconnected :
    (floodFill SymmetryMode.horizontal mirrorFillImg 0 0 "#0000ff").data[2]? =
      some ⟨0, 0, 255, 255⟩ ∧
    mirrorFillImg.data[2]? = some ⟨255, 0, 0, 255⟩ ∧
    ¬ Reach 3 1 mirrorFillImg.data ⟨255, 0, 0, 255⟩ (0, 0) (2, 0) := by
  refine ⟨by decide, by decide, ?_⟩
  intro hr
  have key : ∀ q, Reach 3 1 mirrorFillImg.data ⟨255, 0, 0, 255⟩ (0, 0) q →
      q = ((0 : Int), (0 : Int)) := by
    intro q hq
    induction hq with
    | seed => rfl
    | step p q hp hadj hx0 hxw hy0 hyh hdat ih =>
      subst ih
      rcases hadj with ⟨h1, h2⟩ | ⟨h1, h2⟩ | ⟨h1, h2⟩ | ⟨h1, h2⟩
      · rw [h1, h2] at hdat
        exact absurd hdat (by decide)
      · exfalso
        simp only [Prod.fst, Prod.snd] at h1
        omega
      · exfalso
        simp only [Prod.fst, Prod.snd] at h2
        omega
      · exfalso
        simp only [Prod.fst, Prod.snd] at h2
        omega
  exact absurd (key _ hr) (by decide)

/-- First-occurrence deduplication preserves the set of elements, minus
what was already seen. -/
theorem jsDedupGo_toFinset {α : Type} [DecidableEq α] (l seen : List α) :
    (jsDedupGo seen l).toFinset = l.toFinset \ seen.toFinset := by
  induction l generalizing seen with
  | nil => simp [jsDedupGo]
  | cons a l ih =>
    by_cases ha : a ∈ seen
    · rw [jsDedupGo, if_pos ha, ih]
      ext x
      simp only [Finset.mem_sdiff, List.mem_toFinset, List.mem_cons]
      constructor
      · rintro ⟨hx, hns⟩
        exact ⟨Or.inr hx, hns⟩
      · rintro ⟨hx | hx, hns⟩
        · exact absurd (hx ▸ ha) hns
        · exact ⟨hx, hns⟩
    · rw [jsDedupGo, if_neg ha]
      ext x
      simp only [List.toFinset_cons, Finset.mem_insert, List.mem_toFinset, ih,
        Finset.mem_sdiff, List.mem_cons, Finset.mem_sdiff, List.mem_toFinset,
        List.mem_cons]
      constructor
      · rintro (rfl | ⟨hx, hns⟩)
        · exact ⟨Or.inl rfl, ha⟩
        · refine ⟨Or.inr hx, fun hxs => hns (Or.inr hxs)⟩
      · rintro ⟨rfl | hx, hns⟩
        · exact Or.inl rfl
        · by_cases hxa : x = a
          · exact Or.inl hxa
          · exact Or.inr ⟨hx, fun hh => hh.elim hxa hns⟩

/-- `jsDedup` preserves the set of elements. -/
theorem jsDedup_toFinset {α : Type} [DecidableEq α] (l : List α) :
    (jsDedup l).toFinset = l.toFinset := by
  rw [jsDedup, jsDedupGo_toFinset]
  simp

/-- **C7.** If no pixel has alpha above 128, the quantizer returns an
empty palette (not an error); and whenever the distinct opaque colors
number at most `count`, it returns exactly that distinct set
(order-independent comparison via `toFinset`). -/
theorem quantizeColors_distinct_passthrough (img : ImageData) (count : Nat) :
    (opaquePixels img = [] → quantizeColors img count = []) ∧
    ((jsDedup ((opaquePixels img).map
        (fun p => rgbaToHex p.r p.g p.b))).length ≤ count →
      (quantizeColors img count).toFinset =
        ((opaquePixels img).map (fun p => rgbaToHex p.r p.g p.b)).toFinset) := by
  constructor
  · intro h
    simp [quantizeColors, h]
  · intro hlen
    by_cases hp : (opaquePixels img).length = 0
    · rw [List.length_eq_zero] at hp
      simp [quantizeColors, hp]
    · rw [quantizeColors]
      simp only [if_neg hp, if_pos hlen]
      exact jsDedup_toFinset _

/-- Witness for C7 at a concrete buffer: one opaque red pixel and one
fully transparent pixel, target count 3. -/
theorem quantizeColors_distinct_passthrough_witness :
    ((jsDedup ((opaquePixels
        (ImageData.mk 2 1 [⟨255, 0, 0, 255⟩, ⟨9, 9, 9, 0⟩])).map
        (fun p => rgbaToHex p.r p.g p.b))).length ≤ 3) ∧
    (quantizeColors (ImageData.mk 2 1 [⟨255, 0, 0, 255⟩, ⟨9, 9, 9, 0⟩]) 3).toFinset =
      ((opaquePixels (ImageData.mk 2 1 [⟨255, 0, 0, 255⟩, ⟨9, 9, 9, 0⟩])).map
        (fun p => rgbaToHex p.r p.g p.b)).toFinset :=
  ⟨by decide,
    (quantizeColors_distinct_passthrough
      (ImageData.mk 2 1 [⟨255, 0, 0, 255⟩, ⟨9, 9, 9, 0⟩]) 3).2 (by decide)⟩

/-- The running best of the selection loop never decreases. -/
theorem pickBucketGo_mono (l : List (List RGB)) :
    ∀ (i : Nat) (best : Option (Nat × Int)) (jr : Nat × Int),
    pickBucketGo i l best = some jr → bestRange best ≤ jr.2 := by
  induction l with
  | nil =>
    intro i best jr h
    rw [pickBucketGo] at h
    rw [h]
    exact le_refl _
  | cons bkt rest ih =>
    intro i best jr h
    rw [pickBucketGo] at h
    by_cases hc : 1 < bkt.length ∧ bestRange best < bucketRange bkt
    · rw [if_pos hc] at h
      have hle : bestRange (some (i, bucketRange bkt)) ≤ jr.2 := ih (i + 1) _ jr h
      exact le_trans (le_of_lt hc.2) hle
    · rw [if_neg hc] at h
      exact ih (i + 1) best jr h

/-- The selection loop's result is the carried best or a splittable bucket
found in the remaining list (located by its absolute index). -/
theorem pickBucketGo_found (l : List (List RGB)) :
    ∀ (i : Nat) (best : Option (Nat × Int)) (jr : Nat × Int),
    pickBucketGo i l best = some jr →
    best = some jr ∨ ∃ (k : Nat) (bkt : List RGB), l[k]? = some bkt ∧
      jr.1 = i + k ∧ jr.2 = bucketRange bkt ∧ 1 < bkt.length := by
  induction l with
  | nil =>
    intro i best jr h
    rw [pickBucketGo] at h
    exact Or.inl h
  | cons bkt rest ih =>
    intro i best jr h
    rw [pickBucketGo] at h
    by_cases hc : 1 < bkt.length ∧ bestRange best < bucketRange bkt
    · rw [if_pos hc] at h
      rcases ih (i + 1) _ jr h with hbest | ⟨k, b', hk, hidx, hr, hlen⟩
      · rcases Option.some.inj hbest with rfl
        exact Or.inr ⟨0, bkt, List.getElem?_cons_zero, (Nat.add_zero i).symm, rfl, hc.1⟩
      · refine Or.inr ⟨k + 1, b', by simpa using hk, by omega, hr, hlen⟩
    · rw [if_neg hc] at h
      rcases ih (i + 1) best jr h with hbest | ⟨k, b', hk, hidx, hr, hlen⟩
      · exact Or.inl hbest
      · exact Or.inr ⟨k + 1, b', by simpa using hk, by omega, hr, hlen⟩

/-- Maximality: the selection loop's result dominates the range of every
bucket with more than one pixel. -/
theorem pickBucketGo_max (l : List (List RGB)) :
    ∀ (i : Nat) (best : Option (Nat × Int)) (jr : Nat × Int),
    pickBucketGo i l best = some jr →
    ∀ (k : Nat) (bkt : List RGB), l[k]? = some bkt → 1 < bkt.length →
      bucketRange bkt ≤ jr.2 := by
  induction l with
  | nil =>
    intro i best jr _ k bkt hk
    simp at hk
  | cons b0 rest ih =>
    intro i best jr h k bkt hk hlen
    rw [pickBucketGo] at h
    match k with
    | 0 =>
      rw [List.getElem?_cons_zero] at hk
      rcases Option.some.inj hk with rfl
      by_cases hc : 1 < b0.length ∧ bestRange best < bucketRange b0
      · rw [if_pos hc] at h
        have hle : bestRange (some (i, bucketRange b0)) ≤ jr.2 :=
          pickBucketGo_mono rest (i + 1) _ jr h
        exact hle
      · rw [if_neg hc] at h
        have hle : bucketRange b0 ≤ bestRange best := by
          by_contra hgt
          push_neg at hgt
          exact hc ⟨hlen, hgt⟩
        exact le_trans hle (pickBucketGo_mono rest (i + 1) best jr h)
    | k' + 1 =>
      rw [List.getElem?_cons_succ] at hk
      by_cases hc : 1 < b0.length ∧ bestRange best < bucketRange b0
      · rw [if_pos hc] at h
        exact ih (i + 1) _ jr h k' bkt hk hlen
      · rw [if_neg hc] at h
        exact ih (i + 1) best jr h k' bkt hk hlen

/-- **C3.** Whenever the median-cut selection step succeeds, the chosen
bucket has more than one pixel and maximal per-channel range (max − min
over R, G, B) among all buckets with more than one pixel; the sort axis is
G if G's range ≥ R's and ≥ B's, else B if B's range ≥ R's and ≥ G's, else
R; and the loop body replaces that bucket in place with the two halves of
its axis-sorted permutation split at index `floor(length/2)`. -/
theorem medianCut_split_spec (buckets : List (List RGB)) (j : Nat) (r : Int)
    (hpick : pickBucket buckets = some (j, r)) :
    ∃ bucketToSort : List RGB, buckets[j]? = some bucketToSort ∧
      1 < bucketToSort.length ∧
      r = bucketRange bucketToSort ∧
      (∀ (k : Nat) (b' : List RGB), buckets[k]? = some b' → 1 < b'.length →
        bucketRange b' ≤ bucketRange bucketToSort) ∧
      (sortAxisOf bucketToSort = 1 ↔
        rRange (bucketBounds bucketToSort) ≤ gRange (bucketBounds bucketToSort) ∧
        bRange (bucketBounds bucketToSort) ≤ gRange (bucketBounds bucketToSort)) ∧
      (sortAxisOf bucketToSort = 2 ↔
        ¬(rRange (bucketBounds bucketToSort) ≤ gRange (bucketBounds bucketToSort) ∧
          bRange (bucketBounds bucketToSort) ≤ gRange (bucketBounds bucketToSort)) ∧
        (rRange (bucketBounds bucketToSort) ≤ bRange (bucketBounds bucketToSort) ∧
          gRange (bucketBounds bucketToSort) ≤ bRange (bucketBounds bucketToSort))) ∧
      ∃ sorted : List RGB, sorted.Perm bucketToSort ∧
        List.Sorted (fun p q => axisVal (sortAxisOf bucketToSort) p ≤
          axisVal (sortAxisOf bucketToSort) q) sorted ∧
        splitBucket buckets j =
          buckets.take j ++
            [sorted.take (bucketToSort.length / 2),
              sorted.drop (bucketToSort.length / 2)] ++
            buckets.drop (j + 1) := by
  rcases pickBucketGo_found buckets 0 none (j, r) hpick with
    hbest | ⟨k, bkt, hk, hidx, hr, hlen⟩
  · exact absurd hbest (by simp)
  · have hjk : j = k := by simpa using hidx
    subst hjk
    refine ⟨bkt, hk, hlen, hr, ?_, ?_, ?_, ?_⟩
    · intro k' b' hk' hlen'
      exact le_trans
        (pickBucketGo_max buckets 0 none (j, r) hpick k' b' hk' hlen')
        (le_of_eq hr)
    · by_cases h1 : rRange (bucketBounds bkt) ≤ gRange (bucketBounds bkt) ∧
          bRange (bucketBounds bkt) ≤ gRange (bucketBounds bkt)
      · simp [sortAxisOf, h1]
      · by_cases h2 : rRange (bucketBounds bkt) ≤ bRange (bucketBounds bkt) ∧
            gRange (bucketBounds bkt) ≤ bRange (bucketBounds bkt)
        · simp [sortAxisOf, h1, h2]
        · simp [sortAxisOf, h1, h2]
    · by_cases h1 : rRange (bucketBounds bkt) ≤ gRange (bucketBounds bkt) ∧
          bRange (bucketBounds bkt) ≤ gRange (bucketBounds bkt)
      · simp [sortAxisOf, h1]
      · by_cases h2 : rRange (bucketBounds bkt) ≤ bRange (bucketBounds bkt) ∧
            gRange (bucketBounds bkt) ≤ bRange (bucketBounds bkt)
        · simp [sortAxisOf, h1, h2]
        · simp [sortAxisOf, h1, h2]
    · refine ⟨bkt.mergeSort
        (fun p q => decide (axisVal (sortAxisOf bkt) p ≤ axisVal (sortAxisOf bkt) q)),
        List.mergeSort_perm _ _, ?_, ?_⟩
      · have hs : (bkt.mergeSort
            (fun p q => decide (axisVal (sortAxisOf bkt) p ≤
              axisVal (sortAxisOf bkt) q))).Pairwise
            (fun p q => decide (axisVal (sortAxisOf bkt) p ≤
              axisVal (sortAxisOf bkt) q) = true) := by
          apply List.sorted_mergeSort
          · intro a b c hab hbc
            simp only [decide_eq_true_eq] at hab hbc ⊢
            exact le_trans hab hbc
          · intro a b
            simp only [Bool.or_eq_true, decide_eq_true_eq]
            exact Nat.le_total _ _
        exact hs.imp (fun h => by simpa using h)
      · simp only [splitBucket, hk, List.length_mergeSort]

/-- Witness for C3: the singleton bucket list whose one bucket holds two
pixels differing only in R, so the selection step picks it with range 10. -/
theorem medianCut_split_spec_witness :
    pickBucket [[RGB.mk 10 0 0, RGB.mk 0 0 0]] = some (0, 10) ∧
    (∃ bucketToSort : List RGB,
      [[RGB.mk 10 0 0, RGB.mk 0 0 0]][0]? = some bucketToSort ∧
      1 < bucketToSort.length ∧
      (10 : Int) = bucketRange bucketToSort ∧
      (∀ (k : Nat) (b' : List RGB),
        [[RGB.mk 10 0 0, RGB.mk 0 0 0]][k]? = some b' → 1 < b'.length →
        bucketRange b' ≤ bucketRange bucketToSort) ∧
      (sortAxisOf bucketToSort = 1 ↔
        rRange (bucketBounds bucketToSort) ≤ gRange (bucketBounds bucketToSort) ∧
        bRange (bucketBounds bucketToSort) ≤ gRange (bucketBounds bucketToSort)) ∧
      (sortAxisOf bucketToSort = 2 ↔
        ¬(rRange (bucketBounds bucketToSort) ≤ gRange (bucketBounds bucketToSort) ∧
          bRange (bucketBounds bucketToSort) ≤ gRange (bucketBounds bucketToSort)) ∧
        (rRange (bucketBounds bucketToSort) ≤ bRange (bucketBounds bucketToSort) ∧
          gRange (bucketBounds bucketToSort) ≤ bRange (bucketBounds bucketToSort))) ∧
      ∃ sorted : List RGB, sorted.Perm bucketToSort ∧
        List.Sorted (fun p q => axisVal (sortAxisOf bucketToSort) p ≤
          axisVal (sortAxisOf bucketToSort) q) sorted ∧
        splitBucket [[RGB.mk 10 0 0, RGB.mk 0 0 0]] 0 =
          [[RGB.mk 10 0 0, RGB.mk 0 0 0]].take 0 ++
            [sorted.take (bucketToSort.length / 2),
              sorted.drop (bucketToSort.length / 2)] ++
            [[RGB.mk 10 0 0, RGB.mk 0 0 0]].drop (0 + 1)) :=
  ⟨by decide, medianCut_split_spec [[RGB.mk 10 0 0, RGB.mk 0 0 0]] 0 10 (by decide)⟩

/-- **C8.** Deleting the layer when the current frame has exactly one
layer, and deleting the frame when the document has exactly one frame,
are silent no-ops: frames, layers and active indices are all unchanged
and no error is signalled. -/
theorem delete_last_is_noop (s : Editor.EditorState) :
    ((Editor.layersOf s).length = 1 → Editor.handleDeleteLayer s = s) ∧
    (s.frames.length = 1 → Editor.handleDeleteFrame s = s) := by
  constructor
  · intro h
    rw [Editor.handleDeleteLayer]
    simp [h]
  · intro h
    rw [Editor.handleDeleteFrame]
    simp [h]

/-- Witness for C8 at a concrete one-frame, one-layer document. -/
theorem delete_last_is_noop_witness :
    ((Editor.layersOf
        ⟨[⟨"f1", [Editor.createLayer "l1" "Layer 1" 2 2], 100⟩], 0,
          some "l1"⟩).length = 1 ∧
      Editor.handleDeleteLayer
        ⟨[⟨"f1", [Editor.createLayer "l1" "Layer 1" 2 2], 100⟩], 0, some "l1"⟩ =
        ⟨[⟨"f1", [Editor.createLayer "l1" "Layer 1" 2 2], 100⟩], 0, some "l1"⟩) ∧
    ([(⟨"f1", [Editor.createLayer "l1" "Layer 1" 2 2], 100⟩ : Editor.Frame)].length = 1 ∧
      Editor.handleDeleteFrame
        ⟨[⟨"f1", [Editor.createLayer "l1" "Layer 1" 2 2], 100⟩], 0, some "l1"⟩ =
        ⟨[⟨"f1", [Editor.createLayer "l1" "Layer 1" 2 2], 100⟩], 0, some "l1"⟩) :=
  ⟨⟨by decide,
    (delete_last_is_noop
      ⟨[⟨"f1", [Editor.createLayer "l1" "Layer 1" 2 2], 100⟩], 0, some "l1"⟩).1
      (by decide)⟩,
    ⟨by decide,
      (delete_last_is_noop
        ⟨[⟨"f1", [Editor.createLayer "l1" "Layer 1" 2 2], 100⟩], 0, some "l1"⟩).2
        (by decide)⟩⟩

/-- After `updateCurrentFrameLayers` (and a change of active layer id),
the current frame's layer list is the new list. -/
theorem Editor.layersOf_update (s : Editor.EditorState)
    (nl : List Editor.Layer) (aid : Option String) (f : Editor.Frame)
    (hf : s.frames[s.currentFrameIndex]? = some f) :
    Editor.layersOf
      { Editor.updateCurrentFrameLayers s nl with activeLayerId := aid } =
      nl := by
  have hsc : ({ Editor.updateCurrentFrameLayers s nl with
      activeLayerId := aid } : Editor.EditorState).frames[s.currentFrameIndex]? =
      some { f with layers := nl } := by
    simp [Editor.updateCurrentFrameLayers, List.getElem?_mapIdx, hf]
  simp only [Editor.layersOf, Editor.updateCurrentFrameLayers] at hsc ⊢
  rw [hsc]

/-- Pointwise correspondence between a list and its `mapIdx` image. -/
theorem forall₂_mapIdx {α β : Type} (P : α → β → Prop) :
    ∀ (l : List α) (f : Nat → α → β), (∀ i a, P a (f i a)) →
      List.Forall₂ P l (l.mapIdx f)
  | [], _, _ => by simp [List.mapIdx_nil]
  | a :: l, f, h => by
    rw [List.mapIdx_cons]
    exact List.Forall₂.cons (h 0 a)
      (forall₂_mapIdx P l _ (fun i b => h (i + 1) b))

/-- **C10.** Duplicate-layer and duplicate-frame copy each source layer's
pixel buffer exactly but do not copy the other layer properties: every
duplicated layer has `isVisible = true`, `opacity = 1`,
`blendMode = "source-over"` and `offset = (0,0)`, regardless of the
source layer's values. -/
theorem duplicate_resets_layer_props (s : Editor.EditorState)
    (newId newFrameId : String) (newIds : Nat → String) (w h : Nat) :
    (∀ activeLayer : Editor.Layer,
      (Editor.layersOf s).find?
        (fun l => decide (some l.id = s.activeLayerId)) = some activeLayer →
      ∃ dup : Editor.Layer,
        dup ∈ Editor.layersOf (Editor.handleDuplicateLayer s newId w h) ∧
        dup.id = newId ∧ dup.buffer = activeLayer.buffer ∧
        dup.isVisible = true ∧ dup.opacity = 1 ∧
        dup.blendMode = "source-over" ∧ dup.offset = (0, 0)) ∧
    (∀ currentFrame : Editor.Frame,
      s.frames[s.currentFrameIndex]? = some currentFrame →
      ∃ newFrame : Editor.Frame,
        (Editor.handleDuplicateFrame s newFrameId newIds w
            h).frames[s.currentFrameIndex + 1]? = some newFrame ∧
        List.Forall₂
          (fun (src dup : Editor.Layer) =>
            dup.buffer = src.buffer ∧ dup.name = src.name ∧
            dup.isVisible = true ∧ dup.opacity = 1 ∧
            dup.blendMode = "source-over" ∧ dup.offset = (0, 0))
          currentFrame.layers newFrame.layers) := by
  constructor
  · intro activeLayer hfind
    rcases hmem : s.frames[s.currentFrameIndex]? with _ | f
    · exfalso
      rw [Editor.layersOf] at hfind
      rw [hmem] at hfind
      simp at hfind
    · refine ⟨{ Editor.createLayer newId (activeLayer.name ++ " Copy") w h with
          buffer := activeLayer.buffer }, ?_, rfl, rfl, rfl, rfl, rfl, rfl⟩
      simp only [Editor.handleDuplicateLayer, hfind]
      rw [Editor.layersOf_update s _ _ f hmem]
      simp [List.mem_append]
  · intro currentFrame hcf
    have hlt : s.currentFrameIndex < s.frames.length :=
      (List.getElem?_eq_some_iff.mp hcf).1
    refine ⟨Editor.Frame.mk newFrameId
        (currentFrame.layers.mapIdx
          (fun i l => { Editor.createLayer (newIds i) l.name w h with
            buffer := l.buffer }))
        currentFrame.duration, ?_, ?_⟩
    · simp only [Editor.handleDuplicateFrame, hcf]
      have hlen : (s.frames.take (s.currentFrameIndex + 1)).length =
          s.currentFrameIndex + 1 := by
        rw [List.length_take]
        omega
      rw [List.append_assoc, List.getElem?_append_right (le_of_eq hlen), hlen,
        Nat.sub_self]
      simp
    · exact forall₂_mapIdx _ currentFrame.layers _
        (fun i l => ⟨rfl, rfl, rfl, rfl, rfl, rfl⟩)

/-- Witness for C10 at a concrete document whose only layer is hidden,
half-transparent, multiply-blended and offset. -/
theorem duplicate_resets_layer_props_witness :
    ((Editor.layersOf c10State).find?
        (fun l => decide (some l.id = c10State.activeLayerId)) = some c10Layer ∧
      ∃ dup : Editor.Layer,
        dup ∈ Editor.layersOf (Editor.handleDuplicateLayer c10State "l2" 1 1) ∧
        dup.id = "l2" ∧ dup.buffer = c10Layer.buffer ∧
        dup.isVisible = true ∧ dup.opacity = 1 ∧
        dup.blendMode = "source-over" ∧ dup.offset = (0, 0)) ∧
    (c10State.frames[c10State.currentFrameIndex]? =
        some ⟨"f1", [c10Layer], 100⟩ ∧
      ∃ newFrame : Editor.Frame,
        (Editor.handleDuplicateFrame c10State "f2" (fun _ => "l3") 1
            1).frames[c10State.currentFrameIndex + 1]? = some newFrame ∧
        List.Forall₂
          (fun (src dup : Editor.Layer) =>
            dup.buffer = src.buffer ∧ dup.name = src.name ∧
            dup.isVisible = true ∧ dup.opacity = 1 ∧
            dup.blendMode = "source-over" ∧ dup.offset = (0, 0))
          (Editor.Frame.mk "f1" [c10Layer] 100).layers newFrame.layers) :=
  ⟨⟨by rfl, (duplicate_resets_layer_props c10State "l2" "f2" (fun _ => "l3") 1 1).1
      c10Layer (by rfl)⟩,
    ⟨by rfl, (duplicate_resets_layer_props c10State "l2" "f2" (fun _ => "l3") 1 1).2
      ⟨"f1", [c10Layer], 100⟩ (by rfl)⟩⟩

/-- **C1 (code bug).** The claimed undo/redo semantics do not hold in the
source: `recordHistory`, `handleUndo` and `handleRedo` all have empty
bodies, so no snapshot is ever recorded and undo/redo change nothing.  At
the failing input — a stack of two distinct snapshots with the cursor at
1 — the claim requires `undo` to decrement the cursor to 0 and apply the
first snapshot; the code leaves the cursor at 1 and the state untouched
(`redo` likewise at cursor 0). -/
theorem undo_redo_are_stubs :
    (∀ s : HistoryState,
      recordHistory s = s ∧ handleUndo s = s ∧ handleRedo s = s) ∧
    (handleUndo
      ⟨[Snapshot.mk [], Snapshot.mk [Editor.Frame.mk "f" [] 100]], 1⟩).historyIndex
      = 1 ∧
    (handleRedo
      ⟨[Snapshot.mk [], Snapshot.mk [Editor.Frame.mk "f" [] 100]], 0⟩).historyIndex
      = 0 :=
  ⟨fun _ => ⟨rfl, rfl, rfl⟩, rfl, rfl⟩

/-- **C9.** With horizontal symmetry and brush size 1, drawing at an
in-bounds `(x, y)` sets both `(x, y)` and `(width-1-x, y)` to the color;
when `x = width-1-x` the mirror draw is skipped and only `(x, y)` is set;
every other pixel keeps its value. -/
theorem drawPixel_horizontal_symmetry (c : CanvasSurface) (x y : Int)
    (color : String)
    (hx0 : 0 ≤ x) (hxw : x < (c.width : Int))
    (hy0 : 0 ≤ y) (hyh : y < (c.height : Int)) :
    ∀ px py : Int,
      (drawPixel SymmetryMode.horizontal c x y color 1).pix px py =
        if (px = x ∧ py = y) ∨ (px = (c.width : Int) - 1 - x ∧ py = y) then
          hexToRgba color
        else c.pix px py := by
  intro px py
  simp only [drawPixel,
    apply_ite (fun s : CanvasSurface => s.pix px py), fillRect]
  split_ifs <;> first | rfl | (exfalso; omega)

/-- Witness for C9 on a concrete 3×1 surface, drawing at `(0,0)`. -/
theorem drawPixel_horizontal_symmetry_witness :
    ((0 : Int) ≤ 0 ∧
      (0 : Int) < ((CanvasSurface.mk 3 1 (fun _ _ => ⟨7, 7, 7, 7⟩)).width : Int)) ∧
    ∀ px py : Int,
      (drawPixel SymmetryMode.horizontal
          (CanvasSurface.mk 3 1 (fun _ _ => ⟨7, 7, 7, 7⟩)) 0 0 "#ff0000" 1).pix
          px py =
        if (px = 0 ∧ py = 0) ∨
            (px = ((CanvasSurface.mk 3 1 (fun _ _ => ⟨7, 7, 7, 7⟩)).width : Int)
              - 1 - 0 ∧ py = 0) then
          hexToRgba "#ff0000"
        else (CanvasSurface.mk 3 1 (fun _ _ => ⟨7, 7, 7, 7⟩)).pix px py :=
  ⟨⟨le_refl 0, by decide⟩,
    drawPixel_horizontal_symmetry (CanvasSurface.mk 3 1 (fun _ _ => ⟨7, 7, 7, 7⟩))
      0 0 "#ff0000" (le_refl 0) (by decide) (le_refl 0) (by decide)⟩

/-- **C2 counterexample.** The animated export does not composite frames
respecting layer opacity and blend mode: an opacity-0 layer paints at
full strength in the exported frame while the Compositor leaves the
canvas transparent, and a multiply layer is drawn as plain source-over
(blue instead of the multiplied black). -/
theorem gifExport_ignores_opacity_and_blend :
    (gifExport 1 1 [c2OpacityFrame] 8).encodedFrames =
      [gifRenderFrame 1 1 c2OpacityFrame] ∧
    gifRenderFrame 1 1 c2OpacityFrame 0 0 = ⟨1, 0, 0, 1⟩ ∧
    compositeFrame 1 1 c2OpacityFrame 0 0 = ⟨0, 0, 0, 0⟩ ∧
    gifRenderFrame 1 1 c2BlendFrame 0 0 = ⟨0, 0, 1, 1⟩ ∧
    compositeFrame 1 1 c2BlendFrame 0 0 = ⟨0, 0, 0, 1⟩ := by
  refine ⟨rfl, ?_, ?_, ?_, ?_⟩ <;> with_unfolding_all decide

/-- Each exported GIF frame equals the Compositor applied to the frame
with every layer's opacity replaced by 1 and blend mode by source-over. -/
theorem gifRenderFrame_eq (w h : Nat) (f : Editor.Frame) :
    gifRenderFrame w h f = compositeFrame w h
      { f with
          layers := f.layers.map
            (fun l => { l with opacity := 1, blendMode := "source-over" }) } := by
  simp only [gifRenderFrame, compositeFrame, List.foldl_map]

/-- **C2 (amended).** The animated export produces one output frame per
document frame, each built by drawing that frame's visible layers at
their offsets with full opacity and source-over compositing — layer
opacity and blend mode are ignored (equivalently, it is the Compositor of
the frame with all opacities forced to 1 and all blend modes to
source-over) — and the per-frame delay is `1000 / fps` ms, looping. -/
theorem gifExport_spec (w h : Nat) (framesList : List Editor.Frame) (fps : ℚ) :
    (gifExport w h framesList fps).delayMs = 1000 / fps ∧
    (gifExport w h framesList fps).looping = true ∧
    (gifExport w h framesList fps).encodedFrames.length = framesList.length ∧
    (gifExport w h framesList fps).encodedFrames = framesList.map
      (fun f => compositeFrame w h
        { f with
            layers := f.layers.map
              (fun l => { l with opacity := 1, blendMode := "source-over" }) }) := by
  refine ⟨rfl, rfl, by simp [gifExport], ?_⟩
  simp only [gifExport]
  exact List.map_congr_left (fun f _ => gifRenderFrame_eq w h f)
